import Mathlib

/-!
Verification of `mrjob/tools/emr/s3_tmpwatch.py`: a tool that deletes
objects in S3 whose last-modified timestamp is older than a threshold.

The embedding models:
* Python `timedelta` values as a total count of microseconds (`Timedelta`);
* Python `int(str)` parsing (`pyInt?`);
* `process_time` (duration-string parsing), including the `IndexError`
  raised by `time[-1]` on the empty string and the `ValueError` raised
  by `int()` on a malformed numeral;
* `S3_cleanup` as a pure function from an abstract store (listing and
  parsing collaborators injected as functions) and a clock value to the
  list of effects it performs (connect, get-bucket, log lines, deletes);
* `main` as threshold parsing followed by a cleanup per URI argument;
* Python `str(timedelta)` and `repr(timedelta)` rendering, used by the
  two `log.info` calls.

Instants (the clock and `last_modified`) are integers of microseconds
since an arbitrary epoch; the ISO8601 parsing of `key.last_modified`
(done by boto/strptime, external to this file) is abstracted away by
storing the already-parsed instant on each object.
-/

/-- A Python `datetime.timedelta`, represented by its exact total number of
microseconds (Python normalizes to days/seconds/microseconds; comparison and
equality agree with comparison of the total microsecond count). -/
structure Timedelta where
  micros : Int
deriving DecidableEq

/-- `timedelta(minutes=n)`. -/
def Timedelta.ofMinutes (n : Int) : Timedelta := ⟨n * 60000000⟩

/-- `timedelta(hours=n)`. -/
def Timedelta.ofHours (n : Int) : Timedelta := ⟨n * 3600000000⟩

/-- `timedelta(days=n)`. -/
def Timedelta.ofDays (n : Int) : Timedelta := ⟨n * 86400000000⟩

/-- Whitespace characters stripped by Python `int(str)`. -/
def isPySpace (c : Char) : Bool :=
  c = ' ' || c = '\t' || c = '\n' || c = '\x0d' || c = '\x0b' || c = '\x0c'

/-- Value of a (nonempty, all-digit) numeral. -/
def digitsToNat (l : List Char) : Nat :=
  l.foldl (fun a c => a * 10 + (c.toNat - 48)) 0

/-- Python `int(str)` on an exploded string: strip surrounding whitespace,
allow one sign character, then a nonempty run of digits; anything else is a
`ValueError` (`none`). -/
def pyIntOfList (l : List Char) : Option Int :=
  let t := ((l.dropWhile isPySpace).reverse.dropWhile isPySpace).reverse
  match t with
  | [] => none
  | c :: rest =>
    if c = '-' then
      if rest.isEmpty then none
      else if rest.all Char.isDigit then some (-(digitsToNat rest : Int)) else none
    else if c = '+' then
      if rest.isEmpty then none
      else if rest.all Char.isDigit then some ((digitsToNat rest : Int)) else none
    else if t.all Char.isDigit then some ((digitsToNat t : Int)) else none

/-- Python `int(s)`: `some` the parsed integer, `none` for `ValueError`. -/
def pyInt? (s : String) : Option Int := pyIntOfList s.data

/-- The exceptions `process_time` can raise: `IndexError` from `time[-1]`
on an empty string, `ValueError` from `int()` on a malformed numeral
(the spec's `MalformedDurationError`). -/
inductive PyError where
  | indexError
  | valueError
deriving DecidableEq

deriving instance DecidableEq for Except

/-- `s[-1]` as a total function: the last character, or `none` (IndexError)
when the string is empty. -/
def strLast? (s : String) : Option Char := s.data.getLast?

/-- `s[:-1]`: the string without its last character. -/
def strDropLast (s : String) : String := String.mk s.data.dropLast

/-- `process_time` from `s3_tmpwatch.py`:
```
def process_time(time):
    if time[-1] == 'm':
        return timedelta(minutes=int(time[:-1]))
    elif time[-1] == 'h':
        return timedelta(hours=int(time[:-1]))
    elif time[-1] == 'd':
        return timedelta(days=int(time[:-1]))
    else:
        return timedelta(hours=int(time))
``` -/
def process_time (time : String) : Except PyError Timedelta :=
  match strLast? time with
  | none => .error .indexError
  | some c =>
    if c = 'm' then
      match pyInt? (strDropLast time) with
      | some n => .ok (Timedelta.ofMinutes n)
      | none => .error .valueError
    else if c = 'h' then
      match pyInt? (strDropLast time) with
      | some n => .ok (Timedelta.ofHours n)
      | none => .error .valueError
    else if c = 'd' then
      match pyInt? (strDropLast time) with
      | some n => .ok (Timedelta.ofDays n)
      | none => .error .valueError
    else
      match pyInt? time with
      | some n => .ok (Timedelta.ofHours n)
      | none => .error .valueError

/-- The part of the input `process_time` hands to `int()`: everything before
the unit suffix when the last character is a recognized unit, the whole
string otherwise. -/
def numeralPart (time : String) : String :=
  match strLast? time with
  | none => time
  | some c => if c = 'm' || c = 'h' || c = 'd' then strDropLast time else time

/-- An S3 key as seen by the cleanup loop: its name within the bucket and
its (already ISO8601-parsed, tz-stripped) last-modified instant in
microseconds since the epoch. -/
structure S3Object where
  name : String
  lastModified : Int
deriving DecidableEq

/-- The injected storage collaborators: `runner.ls` (glob expansion),
`parse_s3_uri`, and `bucket.list` (keys under a prefix, per bucket). -/
structure Store where
  ls : String → List String
  parseUri : String → String × String
  listKeys : String → String → List S3Object

/-- One observable effect of a run: establishing the S3 connection,
fetching a bucket, an informational log line, or a key deletion. -/
inductive S3Action where
  | connect
  | getBucket (bucket : String)
  | logHeader (globPath : String) (timeOld : Timedelta)
  | logDelete (keyName : String) (timeDelta : Timedelta)
  | deleteKey (bucket : String) (keyName : String)
deriving DecidableEq

/-- The deletion test of the loop body: `datetime.now() - last_modified >
time_old`, a strict comparison of timedeltas (equivalently, of their total
microsecond counts). -/
def shouldDelete (now lastModified : Int) (timeOld : Timedelta) : Bool :=
  timeOld.micros < now - lastModified

/-- Loop body for one key of `S3_cleanup`: log and (unless `dry_run`)
delete exactly when the age exceeds the threshold. -/
def perKey (now : Int) (timeOld : Timedelta) (dryRun : Bool) (bucket : String)
    (key : S3Object) : List S3Action :=
  if shouldDelete now key.lastModified timeOld then
    S3Action.logDelete key.name ⟨now - key.lastModified⟩ ::
      (if !dryRun then [S3Action.deleteKey bucket key.name] else [])
  else []

/-- Per-path body of `S3_cleanup`: parse the S3 URI, fetch the bucket and
process every key listed under the key-name prefix. -/
def perPath (store : Store) (now : Int) (timeOld : Timedelta) (dryRun : Bool)
    (path : String) : List S3Action :=
  S3Action.getBucket (store.parseUri path).1 ::
    ((store.listKeys (store.parseUri path).1 (store.parseUri path).2).flatMap
      (perKey now timeOld dryRun (store.parseUri path).1))

/-- `S3_cleanup(glob_path, time_old, dry_run, conf_path)` as the list of
effects it performs: connect to S3, log the header, then walk every path
returned by `runner.ls(glob_path)`. -/
def S3_cleanup (store : Store) (now : Int) (globPath : String)
    (timeOld : Timedelta) (dryRun : Bool) : List S3Action :=
  S3Action.connect :: S3Action.logHeader globPath timeOld ::
    ((store.ls globPath).flatMap (perPath store now timeOld dryRun))

/-- The delete calls of a trace, as (bucket, key-name) pairs in order. -/
def deleteCalls (trace : List S3Action) : List (String × String) :=
  trace.filterMap fun a =>
    match a with
    | .deleteKey b n => some (b, n)
    | _ => none

/-- The deletion candidates a trace reports (the `Deleting <key>; is
<elapsed> old` log lines), by key name, in order. -/
def candidates (trace : List S3Action) : List String :=
  trace.filterMap fun a =>
    match a with
    | .logDelete n _ => some n
    | _ => none

/-- Every (bucket, key) pair the run enumerates, in order: each path of
`runner.ls(glob_path)` contributes the keys listed under its parsed
bucket/key-name. -/
def allKeys (store : Store) (globPath : String) : List (String × S3Object) :=
  (store.ls globPath).flatMap fun path =>
    (store.listKeys (store.parseUri path).1 (store.parseUri path).2).map
      fun o => ((store.parseUri path).1, o)

/-- The store after a batch of delete calls is applied: deleted keys no
longer appear in any listing of their bucket. -/
def applyDeletes (store : Store) (dels : List (String × String)) : Store :=
  { store with
    listKeys := fun b k =>
      (store.listKeys b k).filter fun o => !(dels.contains (b, o.name)) }

/-- `main` after option parsing: parse the threshold string, then run
`S3_cleanup` on every URI argument; a parse exception propagates and aborts
the run before anything else happens. -/
def main_run (store : Store) (now : Int) (args : List String)
    (timeStr : String) (dryRun : Bool) : Except PyError (List S3Action) :=
  match process_time timeStr with
  | .error e => .error e
  | .ok timeOld => .ok (args.flatMap fun p => S3_cleanup store now p timeOld dryRun)

/-- The effects actually performed: none when the run aborted with an
exception. -/
def actionsOf (r : Except PyError (List S3Action)) : List S3Action :=
  match r with
  | .error _ => []
  | .ok tr => tr

/-- `"%02d" % n` for `0 ≤ n < 100`. -/
def pad2 (n : Int) : String :=
  if n < 10 then "0" ++ toString n else toString n

/-- `"%06d" % n` for `0 ≤ n < 1000000`. -/
def pad6 (n : Int) : String :=
  String.mk (List.replicate (6 - (toString n).length) '0') ++ toString n

/-- The normalized `days` field of a timedelta (floor division). -/
def tdDays (t : Timedelta) : Int := t.micros.fdiv 86400000000

/-- The normalized `seconds` field of a timedelta, in `[0, 86400)`. -/
def tdSeconds (t : Timedelta) : Int := (t.micros.fmod 86400000000).fdiv 1000000

/-- The normalized `microseconds` field of a timedelta, in `[0, 1000000)`. -/
def tdMicros (t : Timedelta) : Int := t.micros.fmod 1000000

/-- Python `str(timedelta)`: `[D day(s), ]H:MM:SS[.ffffff]`. -/
def pyStrTimedelta (t : Timedelta) : String :=
  let d := tdDays t
  let secs := tdSeconds t
  let hh := secs.fdiv 3600
  let mm := (secs.fmod 3600).fdiv 60
  let ss := secs.fmod 60
  let base := toString hh ++ ":" ++ pad2 mm ++ ":" ++ pad2 ss
  let withDays :=
    if d ≠ 0 then
      toString d ++ " day" ++ (if d.natAbs ≠ 1 then "s" else "") ++ ", " ++ base
    else base
  if tdMicros t ≠ 0 then withDays ++ "." ++ pad6 (tdMicros t) else withDays

/-- Python 2 `repr(timedelta)`: `datetime.timedelta(d[, s[, us]])` with
trailing zero fields omitted. -/
def pyReprTimedelta (t : Timedelta) : String :=
  if tdMicros t ≠ 0 then
    "datetime.timedelta(" ++ toString (tdDays t) ++ ", " ++ toString (tdSeconds t)
      ++ ", " ++ toString (tdMicros t) ++ ")"
  else if tdSeconds t ≠ 0 then
    "datetime.timedelta(" ++ toString (tdDays t) ++ ", " ++ toString (tdSeconds t) ++ ")"
  else
    "datetime.timedelta(" ++ toString (tdDays t) ++ ")"

/-- The log line an action emits, rendered exactly as the two `log.info`
calls of `S3_cleanup` format it:
`'Deleting all files in %s that are older than %r days old' % (glob_path, time_old)`
and `'Deleting %s; is %s old' % (key.name, str(time_delta))`. -/
def S3Action.line (a : S3Action) : Option String :=
  match a with
  | .logHeader g t =>
      some ("Deleting all files in " ++ g ++ " that are older than "
        ++ pyReprTimedelta t ++ " days old")
  | .logDelete n d =>
      some ("Deleting " ++ n ++ "; is " ++ pyStrTimedelta d ++ " old")
  | _ => none

/-- The URI of the object with key `name` in `bucket` (the inverse of
`parse_s3_uri`). -/
def objectUri (bucket name : String) : String := "s3://" ++ bucket ++ "/" ++ name

/-- Modelled from the spec: the claimed shape of a per-object log line,
`Deleting <object-uri>; is <elapsed> old`, identifying the object by its
URI. Used to compare the spec's claim against the lines the code emits. -/
def specObjectLineForm (uri line : String) : Prop :=
  ∃ elapsed, line = "Deleting " ++ uri ++ "; is " ++ elapsed ++ " old"

/-- A store whose glob expands to a single path holding a single key:
the smallest environment exercising the per-key decision. -/
def singleStore (uri bucket pfx : String) (o : S3Object) : Store :=
  { ls := fun _ => [uri]
    parseUri := fun _ => (bucket, pfx)
    listKeys := fun _ _ => [o] }

/-! ## Helper lemmas -/

theorem deleteCalls_append (l₁ l₂ : List S3Action) :
    deleteCalls (l₁ ++ l₂) = deleteCalls l₁ ++ deleteCalls l₂ :=
  List.filterMap_append l₁ l₂ _

theorem deleteCalls_perKey (now : Int) (t : Timedelta) (dry : Bool) (b : String)
    (k : S3Object) :
    deleteCalls (perKey now t dry b k) =
      if dry then []
      else if shouldDelete now k.lastModified t then [(b, k.name)] else [] := by
  cases dry <;> cases h : shouldDelete now k.lastModified t <;>
    simp [perKey, deleteCalls, h]

theorem deleteCalls_keys (now : Int) (t : Timedelta) (dry : Bool) (b : String)
    (ks : List S3Object) :
    deleteCalls (ks.flatMap (perKey now t dry b)) =
      if dry then []
      else (ks.filter fun o => shouldDelete now o.lastModified t).map
        fun o => (b, o.name) := by
  induction ks with
  | nil => cases dry <;> rfl
  | cons k ks ih =>
    rw [List.flatMap_cons, deleteCalls_append, ih, deleteCalls_perKey]
    cases dry <;> cases h : shouldDelete now k.lastModified t <;>
      simp [List.filter_cons, h]

theorem deleteCalls_perPath (store : Store) (now : Int) (t : Timedelta) (dry : Bool)
    (path : String) :
    deleteCalls (perPath store now t dry path) =
      if dry then []
      else ((store.listKeys (store.parseUri path).1 (store.parseUri path).2).filter
          fun o => shouldDelete now o.lastModified t).map
          fun o => ((store.parseUri path).1, o.name) := by
  have h : deleteCalls (perPath store now t dry path) =
      deleteCalls ((store.listKeys (store.parseUri path).1
        (store.parseUri path).2).flatMap
        (perKey now t dry (store.parseUri path).1)) := rfl
  rw [h, deleteCalls_keys]

theorem cleanup_deletes (store : Store) (now : Int) (glob : String) (t : Timedelta)
    (dry : Bool) :
    deleteCalls (S3_cleanup store now glob t dry) =
      if dry then []
      else ((allKeys store glob).filter fun p => shouldDelete now p.2.lastModified t).map
        fun p => (p.1, p.2.name) := by
  have h0 : deleteCalls (S3_cleanup store now glob t dry) =
      deleteCalls ((store.ls glob).flatMap (perPath store now t dry)) := rfl
  rw [h0]
  have h1 : deleteCalls ((store.ls glob).flatMap (perPath store now t dry)) =
      (store.ls glob).flatMap fun path => deleteCalls (perPath store now t dry path) :=
    List.filterMap_flatMap _ _ _
  rw [h1]
  cases dry with
  | true => simp [deleteCalls_perPath]
  | false =>
    unfold allKeys
    rw [List.filter_flatMap, List.map_flatMap]
    refine List.flatMap_congr fun path hpath => ?_
    rw [deleteCalls_perPath]
    simp [List.filter_map, List.map_map, Function.comp_def]

theorem candidates_append (l₁ l₂ : List S3Action) :
    candidates (l₁ ++ l₂) = candidates l₁ ++ candidates l₂ :=
  List.filterMap_append l₁ l₂ _

theorem candidates_perKey (now : Int) (t : Timedelta) (dry : Bool) (b : String)
    (k : S3Object) :
    candidates (perKey now t dry b k) =
      if shouldDelete now k.lastModified t then [k.name] else [] := by
  cases dry <;> cases h : shouldDelete now k.lastModified t <;>
    simp [perKey, candidates, h]

theorem candidates_keys (now : Int) (t : Timedelta) (dry : Bool) (b : String)
    (ks : List S3Object) :
    candidates (ks.flatMap (perKey now t dry b)) =
      (ks.filter fun o => shouldDelete now o.lastModified t).map fun o => o.name := by
  induction ks with
  | nil => rfl
  | cons k ks ih =>
    rw [List.flatMap_cons, candidates_append, ih, candidates_perKey]
    cases h : shouldDelete now k.lastModified t <;> simp [List.filter_cons, h]

theorem cleanup_candidates (store : Store) (now : Int) (glob : String)
    (t : Timedelta) (dry : Bool) :
    candidates (S3_cleanup store now glob t dry) =
      ((allKeys store glob).filter fun p => shouldDelete now p.2.lastModified t).map
        fun p => p.2.name := by
  have h0 : candidates (S3_cleanup store now glob t dry) =
      (store.ls glob).flatMap fun path => candidates (perPath store now t dry path) := by
    have h1 : candidates (S3_cleanup store now glob t dry) =
        candidates ((store.ls glob).flatMap (perPath store now t dry)) := rfl
    rw [h1]; exact List.filterMap_flatMap _ _ _
  rw [h0]
  unfold allKeys
  rw [List.filter_flatMap, List.map_flatMap]
  refine List.flatMap_congr fun path hpath => ?_
  have h2 : candidates (perPath store now t dry path) =
      candidates ((store.listKeys (store.parseUri path).1
        (store.parseUri path).2).flatMap
        (perKey now t dry (store.parseUri path).1)) := rfl
  rw [h2, candidates_keys]
  simp [List.filter_map, List.map_map, Function.comp_def]

theorem count_proj_filter {α β : Type} [BEq β] [LawfulBEq β] (proj : α → β)
    (qual : α → Bool) (l : List α) (hnd : (l.map proj).Nodup) (p : α)
    (hp : p ∈ l) :
    ((l.filter qual).map proj).count (proj p) = if qual p then 1 else 0 := by
  induction l with
  | nil => cases hp
  | cons a l ih =>
    rw [List.map_cons, List.nodup_cons] at hnd
    rcases hnd with ⟨ha, hnd⟩
    rcases List.mem_cons.mp hp with rfl | hp'
    · have hnotin : proj p ∉ (l.filter qual).map proj := fun hmem =>
        ha ((l.filter_sublist.map proj).subset hmem)
      rw [List.filter_cons]
      by_cases hq : qual p
      · rw [if_pos hq, if_pos hq, List.map_cons, List.count_cons_self,
          List.count_eq_zero.mpr hnotin]
      · rw [if_neg hq, if_neg hq, List.count_eq_zero.mpr hnotin]
    · have hne : proj a ≠ proj p := by
        intro h
        exact ha (h ▸ List.mem_map_of_mem proj hp')
      rw [List.filter_cons]
      by_cases hq : qual a
      · rw [if_pos hq, List.map_cons, List.count_cons_of_ne (fun h => hne h.symm)]
        exact ih hnd hp'
      · rw [if_neg hq]
        exact ih hnd hp'

theorem applyDeletes_nil (store : Store) : applyDeletes store [] = store := by
  cases store with
  | mk ls pu lk =>
    unfold applyDeletes
    simp only [Store.mk.injEq]
    refine ⟨trivial, trivial, ?_⟩
    funext b k
    simp

theorem logDelete_mem_cleanup (store : Store) (now : Int) (glob : String)
    (t : Timedelta) (dry : Bool) (p : String × S3Object)
    (hp : p ∈ allKeys store glob)
    (hq : shouldDelete now p.2.lastModified t = true) :
    S3Action.logDelete p.2.name ⟨now - p.2.lastModified⟩ ∈
      S3_cleanup store now glob t dry := by
  unfold allKeys at hp
  rcases List.mem_flatMap.mp hp with ⟨path, hpath, hmem⟩
  rcases List.mem_map.mp hmem with ⟨o, ho, rfl⟩
  simp only at hq
  refine List.mem_cons_of_mem _ (List.mem_cons_of_mem _ ?_)
  refine List.mem_flatMap.mpr ⟨path, hpath, ?_⟩
  refine List.mem_cons_of_mem _ ?_
  refine List.mem_flatMap.mpr ⟨o, ho, ?_⟩
  simp [perKey, hq]

theorem cleanup_deletes_dry (store : Store) (now : Int) (glob : String)
    (t : Timedelta) :
    deleteCalls (S3_cleanup store now glob t true) = [] := by
  rw [cleanup_deletes]; simp

theorem cleanup_deletes_wet (store : Store) (now : Int) (glob : String)
    (t : Timedelta) :
    deleteCalls (S3_cleanup store now glob t false) =
      ((allKeys store glob).filter fun p => shouldDelete now p.2.lastModified t).map
        fun p => (p.1, p.2.name) := by
  rw [cleanup_deletes]; simp

/-! ## Claims -/

/-- Claim C1: with `dry_run` true a run issues zero delete calls and leaves
the store unchanged; with `dry_run` false and the same inputs it issues
exactly one delete call per enumerated object whose age strictly exceeds
the threshold, and none for any other object. -/
theorem dry_run_zero_mutations_and_exact_deletes (store : Store) (now : Int)
    (glob : String) (t : Timedelta)
    (hnd : ((allKeys store glob).map fun p => (p.1, p.2.name)).Nodup) :
    deleteCalls (S3_cleanup store now glob t true) = [] ∧
    applyDeletes store (deleteCalls (S3_cleanup store now glob t true)) = store ∧
    (∀ p ∈ allKeys store glob,
      (deleteCalls (S3_cleanup store now glob t false)).count (p.1, p.2.name) =
        if shouldDelete now p.2.lastModified t then 1 else 0) ∧
    ∀ q : String × String,
      q ∉ (allKeys store glob).map (fun p => (p.1, p.2.name)) →
        (deleteCalls (S3_cleanup store now glob t false)).count q = 0 := by
  refine ⟨cleanup_deletes_dry store now glob t, ?_, ?_, ?_⟩
  · rw [cleanup_deletes_dry, applyDeletes_nil]
  · intro p hp
    rw [cleanup_deletes_wet]
    exact count_proj_filter (fun p => (p.1, p.2.name))
      (fun p => shouldDelete now p.2.lastModified t) (allKeys store glob) hnd p hp
  · intro q hq
    rw [cleanup_deletes_wet]
    refine List.count_eq_zero.mpr fun hmem => hq ?_
    exact (((allKeys store glob).filter_sublist.map _).subset) hmem

/-- Witness for C1: a store with one stale and one fresh object. -/
theorem dry_run_zero_mutations_and_exact_deletes_witness :
    deleteCalls (S3_cleanup ⟨fun _ => ["u"], fun _ => ("b", "k"),
      fun _ _ => [⟨"old", 0⟩, ⟨"new", 95⟩]⟩ 100 "g" ⟨10⟩ true) = [] ∧
    (deleteCalls (S3_cleanup ⟨fun _ => ["u"], fun _ => ("b", "k"),
      fun _ _ => [⟨"old", 0⟩, ⟨"new", 95⟩]⟩ 100 "g" ⟨10⟩ false)).count
      ("b", "old") = 1 ∧
    (deleteCalls (S3_cleanup ⟨fun _ => ["u"], fun _ => ("b", "k"),
      fun _ _ => [⟨"old", 0⟩, ⟨"new", 95⟩]⟩ 100 "g" ⟨10⟩ false)).count
      ("b", "new") = 0 := by
  have h := dry_run_zero_mutations_and_exact_deletes
    ⟨fun _ => ["u"], fun _ => ("b", "k"), fun _ _ => [⟨"old", 0⟩, ⟨"new", 95⟩]⟩
    100 "g" ⟨10⟩ (by decide)
  refine ⟨h.1, ?_, ?_⟩
  · have h2 := h.2.2.1 ("b", ⟨"old", 0⟩) (by decide)
    rw [h2]; decide
  · have h3 := h.2.2.1 ("b", ⟨"new", 95⟩) (by decide)
    rw [h3]; decide

/-- Claim C2: the deletion decision is exactly the strict comparison
`now - last_modified > time_old`: equality is not deleted, strict excess
is; 31 days old against a 30-day threshold is deleted, 29 days is not. -/
theorem deletion_decision_strict (now : Int) (o : S3Object) (t : Timedelta)
    (uri b pfx g : String) :
    (deleteCalls (S3_cleanup (singleStore uri b pfx o) now g t false) =
      if now - o.lastModified > t.micros then [(b, o.name)] else []) ∧
    (now - o.lastModified = t.micros →
      deleteCalls (S3_cleanup (singleStore uri b pfx o) now g t false) = []) ∧
    shouldDelete (31 * 86400000000) 0 (Timedelta.ofDays 30) = true ∧
    shouldDelete (29 * 86400000000) 0 (Timedelta.ofDays 30) = false := by
  have hw := cleanup_deletes_wet (singleStore uri b pfx o) now g t
  have hall : allKeys (singleStore uri b pfx o) g = [(b, o)] := rfl
  rw [hall] at hw
  refine ⟨?_, ?_, by decide, by decide⟩
  · rw [hw]
    by_cases h : t.micros < now - o.lastModified
    · rw [if_pos h]
      simp [shouldDelete, List.filter_cons, h]
    · rw [if_neg h]
      simp [shouldDelete, List.filter_cons, h]
  · intro heq
    rw [hw]
    simp [shouldDelete, List.filter_cons, heq]

/-- Witness for C2: an object exactly as old as the threshold is kept. -/
theorem deletion_decision_strict_witness :
    deleteCalls (S3_cleanup (singleStore "u" "b" "k" ⟨"x", 3⟩) 10 "g" ⟨7⟩ false) =
      [] :=
  (deletion_decision_strict 10 ⟨"x", 3⟩ ⟨7⟩ "u" "b" "k" "g").2.1 (by decide)

/-- Claim C3: duration parsing dispatches on the final character only:
`"45m"` is 45 minutes, `"2h"` is 2 hours, `"7d"` is 7 days, and any
nonempty string without a recognized suffix is parsed entirely as an
integer number of hours. -/
theorem process_time_units :
    process_time "45m" = .ok (Timedelta.ofMinutes 45) ∧
    process_time "2h" = .ok (Timedelta.ofHours 2) ∧
    process_time "7d" = .ok (Timedelta.ofDays 7) ∧
    process_time "5" = .ok (Timedelta.ofHours 5) ∧
    ∀ (s : String) (c : Char), strLast? s = some c →
      c ≠ 'm' → c ≠ 'h' → c ≠ 'd' →
      process_time s =
        match pyInt? s with
        | some n => .ok (Timedelta.ofHours n)
        | none => .error .valueError := by
  refine ⟨by decide, by decide, by decide, by decide, ?_⟩
  intro s c hc hm hh hd
  unfold process_time
  rw [hc]
  simp [hm, hh, hd]

/-- Witness for C3: the general default-unit clause applied to `"5"`. -/
theorem process_time_units_witness :
    process_time "5" =
      match pyInt? "5" with
      | some n => .ok (Timedelta.ofHours n)
      | none => .error .valueError :=
  process_time_units.2.2.2.2 "5" '5' (by decide) (by decide) (by decide) (by decide)

/-- Claim C4: whenever the numeral handed to `int()` (the input minus a
recognized unit suffix) is not a valid integer literal, `process_time`
raises the `ValueError` the spec calls `MalformedDurationError`; in
particular on `"d"` (empty numeral) and `"abc"` (no suffix, not a
number). -/
theorem process_time_invalid_numeral (s : String) (c : Char)
    (hc : strLast? s = some c) (hbad : pyInt? (numeralPart s) = none) :
    process_time s = .error .valueError ∧
    process_time "d" = .error .valueError ∧
    process_time "abc" = .error .valueError := by
  refine ⟨?_, by decide, by decide⟩
  unfold numeralPart at hbad
  rw [hc] at hbad
  unfold process_time
  rw [hc]
  by_cases hm : c = 'm'
  · subst hm
    simp at hbad
    simp [hbad]
  · by_cases hh : c = 'h'
    · subst hh
      simp at hbad
      simp [hbad]
    · by_cases hd : c = 'd'
      · subst hd
        simp at hbad
        simp [hbad]
      · simp [hm, hh, hd] at hbad
        simp [hm, hh, hd, hbad]

/-- Witness for C4: `"abc"` has no suffix and is not an integer. -/
theorem process_time_invalid_numeral_witness :
    process_time "abc" = .error .valueError :=
  (process_time_invalid_numeral "abc" 'c' (by decide) (by decide)).1

/-- Claim C5: when the threshold string does not parse, `main` propagates
the exception and performs nothing: no connection, no listing, no
deletion — the produced effect trace is empty. -/
theorem parse_error_aborts (store : Store) (now : Int) (args : List String)
    (tstr : String) (dry : Bool) (e : PyError)
    (h : process_time tstr = .error e) :
    main_run store now args tstr dry = .error e ∧
    actionsOf (main_run store now args tstr dry) = [] ∧
    S3Action.connect ∉ actionsOf (main_run store now args tstr dry) ∧
    deleteCalls (actionsOf (main_run store now args tstr dry)) = [] := by
  have h1 : main_run store now args tstr dry = .error e := by
    unfold main_run
    rw [h]
  refine ⟨h1, ?_, ?_, ?_⟩ <;> rw [h1] <;> simp [actionsOf, deleteCalls]

/-- Witness for C5: an unparsable `--time` value aborts the whole run. -/
theorem parse_error_aborts_witness :
    main_run ⟨fun _ => ["u"], fun _ => ("b", "k"), fun _ _ => [⟨"x", 0⟩]⟩
      100 ["u"] "abc" false = .error .valueError :=
  (parse_error_aborts ⟨fun _ => ["u"], fun _ => ("b", "k"), fun _ _ => [⟨"x", 0⟩]⟩
    100 ["u"] "abc" false .valueError (by decide)).1

/-- Counterexample for C6: in a run over bucket `b` with key `tmp/x`
(age one day, threshold zero), the code emits the log line
`Deleting tmp/x; is 1 day, 0:00:00 old` for that object, and this line
does not have the claimed form `Deleting <object-uri>; is <elapsed> old`
for the object's URI `s3://b/tmp/x`: the line names the key, not the URI. -/
theorem object_line_names_key_not_uri :
    S3Action.logDelete "tmp/x" ⟨86400000000⟩ ∈
      S3_cleanup (singleStore "s3://b/tmp/" "b" "tmp/" ⟨"tmp/x", 0⟩)
        86400000000 "s3://b/tmp/*" ⟨0⟩ true ∧
    (S3Action.logDelete "tmp/x" ⟨86400000000⟩).line =
      some "Deleting tmp/x; is 1 day, 0:00:00 old" ∧
    ¬ specObjectLineForm (objectUri "b" "tmp/x")
        "Deleting tmp/x; is 1 day, 0:00:00 old" := by
  refine ⟨by decide, by decide, ?_⟩
  rintro ⟨e, he⟩
  have hpre : ("Deleting " ++ objectUri "b" "tmp/x" ++ "; is ") =
      "Deleting s3://b/tmp/x; is " := by decide
  rw [hpre] at he
  have hd := congrArg (fun s : String => s.data.take 26) he
  simp only [String.data_append] at hd
  rw [List.take_append_of_le_length (by
        rw [List.length_append]
        have h26 : ("Deleting s3://b/tmp/x; is ".data).length = 26 := by decide
        rw [h26]
        omega),
      List.take_append_of_le_length (by decide)] at hd
  exact absurd hd (by decide)

/-- Claim C6 (amended): each run logs the header line
`Deleting all files in <path> that are older than <repr(threshold)> days old`,
and, per object whose age strictly exceeds the threshold, the line
`Deleting <key-name>; is <str(elapsed)> old` — the object is identified by
its key name within the bucket, not by its full URI. -/
theorem log_line_forms (store : Store) (now : Int) (glob : String)
    (t : Timedelta) (dry : Bool) :
    S3Action.logHeader glob t ∈ S3_cleanup store now glob t dry ∧
    (S3Action.logHeader glob t).line =
      some ("Deleting all files in " ++ glob ++ " that are older than "
        ++ pyReprTimedelta t ++ " days old") ∧
    (∀ p ∈ allKeys store glob, shouldDelete now p.2.lastModified t = true →
      S3Action.logDelete p.2.name ⟨now - p.2.lastModified⟩ ∈
        S3_cleanup store now glob t dry) ∧
    ∀ (n : String) (d : Timedelta),
      (S3Action.logDelete n d).line =
        some ("Deleting " ++ n ++ "; is " ++ pyStrTimedelta d ++ " old") := by
  refine ⟨List.mem_cons_of_mem _ (List.mem_cons_self _ _), rfl, ?_, fun n d => rfl⟩
  intro p hp hq
  exact logDelete_mem_cleanup store now glob t dry p hp hq

/-- Witness for C6 (amended): the stale key of the counterexample store is
logged by name. -/
theorem log_line_forms_witness :
    S3Action.logDelete "tmp/x" ⟨86400000000⟩ ∈
      S3_cleanup (singleStore "s3://b/tmp/" "b" "tmp/" ⟨"tmp/x", 0⟩)
        86400000000 "s3://b/tmp/*" ⟨0⟩ false :=
  (log_line_forms (singleStore "s3://b/tmp/" "b" "tmp/" ⟨"tmp/x", 0⟩)
    86400000000 "s3://b/tmp/*" ⟨0⟩ false).2.2.1
    ("b", ⟨"tmp/x", 0⟩) (by decide) (by decide)

/-- Claim C7: a glob that resolves to zero objects is not an error: the
cleanup issues no delete calls for it and `main` continues with the
remaining URIs, returning normally. -/
theorem empty_glob_ok (store : Store) (now : Int) (glob : String)
    (t td : Timedelta) (dry : Bool) (tstr : String) (args : List String)
    (h : allKeys store glob = []) (hp : process_time tstr = .ok td) :
    deleteCalls (S3_cleanup store now glob t dry) = [] ∧
    main_run store now (glob :: args) tstr dry =
      .ok (S3_cleanup store now glob td dry ++
        args.flatMap fun p => S3_cleanup store now p td dry) := by
  constructor
  · rw [cleanup_deletes, h]
    cases dry <;> simp
  · unfold main_run
    rw [hp]
    simp [List.flatMap_cons]

/-- Witness for C7: a store whose listing is empty. -/
theorem empty_glob_ok_witness :
    deleteCalls (S3_cleanup ⟨fun _ => [], fun _ => ("", ""), fun _ _ => []⟩
      0 "g" ⟨0⟩ false) = [] :=
  (empty_glob_ok ⟨fun _ => [], fun _ => ("", ""), fun _ _ => []⟩ 0 "g" ⟨0⟩
    (Timedelta.ofDays 30) false "30d" [] (by decide) (by decide)).1

/-- Claim C8: a dry run mutates nothing, so running the tool twice in
dry-run mode over the same store (and clock) reports identical
deletion-candidate lists: the second run, on the store left by the first,
reports the same candidates as the first. -/
theorem dry_run_idempotent (store : Store) (now : Int) (glob : String)
    (t : Timedelta) :
    candidates (S3_cleanup
        (applyDeletes store (deleteCalls (S3_cleanup store now glob t true)))
        now glob t true) =
      candidates (S3_cleanup store now glob t true) := by
  rw [cleanup_deletes_dry, applyDeletes_nil]

/-- Claim C9: `process_time` on the empty string raises `IndexError` (from
evaluating `time[-1]`), not the `ValueError` of a malformed numeral. -/
theorem empty_string_index_error :
    process_time "" = .error .indexError ∧
    PyError.indexError ≠ PyError.valueError := by decide

/-- Counterexample for C10: `"0d"` parses to the zero threshold, and under
it an object of age exactly zero (nonnegative) is NOT classified for
deletion, contradicting the claim that every object with nonnegative age
is; the delete-call list of such a run is empty. -/
theorem zero_threshold_age_zero_kept :
    process_time "0d" = .ok ⟨0⟩ ∧
    shouldDelete 5 5 ⟨0⟩ = false ∧
    deleteCalls (S3_cleanup (singleStore "u" "b" "k" ⟨"x", 5⟩) 5 "g" ⟨0⟩ false) =
      [] := by decide

/-- Claim C10 (amended): duration parsing accepts negative and zero
magnitudes (`"-1h"` is minus one hour, `"0d"` is zero); under a strictly
negative threshold every object with nonnegative age is classified for
deletion, while under a zero threshold exactly the objects with strictly
positive age are. -/
theorem negative_zero_thresholds (now lm : Int) (t : Timedelta) :
    process_time "-1h" = .ok (Timedelta.ofHours (-1)) ∧
    process_time "0d" = .ok (Timedelta.ofDays 0) ∧
    (t.micros < 0 → 0 ≤ now - lm → shouldDelete now lm t = true) ∧
    (t.micros = 0 → (shouldDelete now lm t = true ↔ 0 < now - lm)) := by
  refine ⟨by decide, by decide, ?_, ?_⟩
  · intro h1 h2
    simp only [shouldDelete, decide_eq_true_eq]
    omega
  · intro h
    simp [shouldDelete, h]

/-- Witness for C10 (amended): a negative threshold deletes an object of
age zero. -/
theorem negative_zero_thresholds_witness :
    shouldDelete 5 5 (Timedelta.ofHours (-1)) = true :=
  (negative_zero_thresholds 5 5 (Timedelta.ofHours (-1))).2.2.1
    (by decide) (by decide)
